import Mathlib

/-!
# Verification development for the PropulsionDesign repository

This file gives a shallow embedding of the two source modules of the
repository, `lib/cea.py` (the NASA-CEA input writer and output parser) and
`lib/plumbing.py` (feed-line fluid formulas), and proves the specification
claims about them.

Modelling conventions:
* Python strings are Lean `String`s; the line-oriented helpers
  (whitespace `split()`, substring `in`, `splitlines`) are defined below by
  structural recursion on the character list.
* Python floats appearing in `cea.py` are modelled as the exact rationals
  they denote (`ℚ`); the numeric formulas of `plumbing.py` use `ℝ` because
  they involve `sqrt`, `log10` and real powers.
* Fallible Python operations (float division by zero, `float(...)` on a
  malformed token, out-of-range indexing, `math.log10` of a non-positive
  number, `math.sqrt` of a negative number) are modelled with `Option`:
  `none` models the Python call raising.
-/

/-! ## Character-list string utilities (Python semantics) -/

/-- Boolean test that the first list is a leading segment of the second
(used to model Python's `str.startswith` and as a building block for
substring search). -/
def isPre : List Char → List Char → Bool
  | [], _ => true
  | _ :: _, [] => false
  | a :: as, b :: bs => if a = b then isPre as bs else false

/-- Boolean substring search on character lists, modelling Python's
`needle in haystack`. -/
def hasSub (p : List Char) : List Char → Bool
  | [] => p.isEmpty
  | c :: t => isPre p (c :: t) || hasSub p t

/-- Python's `pat in line` substring test on strings. -/
def containsSub (line pat : String) : Bool := hasSub pat.data line.data

/-- Accumulator-based core of Python's whitespace `str.split()`:
runs of whitespace separate tokens, and empty tokens are dropped. -/
def splitWsCore : List Char → List Char → List (List Char)
  | [], acc => if acc.isEmpty then [] else [acc.reverse]
  | c :: cs, acc =>
      if c.isWhitespace then
        (if acc.isEmpty then splitWsCore cs [] else acc.reverse :: splitWsCore cs [])
      else splitWsCore cs (c :: acc)

/-- Python's `line.split()` (split on whitespace runs, discarding empties). -/
def pySplit (s : String) : List String :=
  (splitWsCore s.data []).map fun l => String.mk l

/-- Split a character list at newline characters, keeping empty segments:
the lines of a text file's contents. -/
def splitNl : List Char → List (List Char)
  | [] => [[]]
  | c :: cs =>
      if c = '\n' then [] :: splitNl cs
      else
        match splitNl cs with
        | [] => [[c]]
        | h :: t => (c :: h) :: t

/-- Split a character list at the first character satisfying `p`,
returning the segment before it and the rest (starting with the hit). -/
def breakAt (p : Char → Bool) : List Char → (List Char × List Char)
  | [] => ([], [])
  | c :: cs => if p c then ([], c :: cs) else
      let r := breakAt p cs
      (c :: r.1, r.2)

/-- The decimal digit character for `n` (`n` is always in `0..9` at use
sites). -/
def digitChar : ℕ → Char
  | 0 => '0'
  | 1 => '1'
  | 2 => '2'
  | 3 => '3'
  | 4 => '4'
  | 5 => '5'
  | 6 => '6'
  | 7 => '7'
  | 8 => '8'
  | _ => '9'

/-- Fuel-bounded most-significant-first decimal digit rendering of a
natural number (the fuel argument only bounds the recursion depth; it is
always sufficient at use sites). -/
def natChars : ℕ → ℕ → List Char
  | 0, _ => []
  | fuel + 1, n =>
      if n < 10 then [digitChar n] else natChars fuel (n / 10) ++ [digitChar (n % 10)]

/-- Decimal rendering of a natural number. -/
def natStr (n : ℕ) : List Char := natChars (n + 1) n

/-- Value of a nonempty all-digit character list as a natural number. -/
def digitsVal (l : List Char) : ℕ := l.foldl (fun a c => a * 10 + (c.toNat - 48)) 0

/-- Boolean test that every character of the list is a decimal digit. -/
def allDig (l : List Char) : Bool := l.all Char.isDigit

/-- The exact rational denoted by the decimal `± n · 10^(-scale) · 10^e`
(with the sign applied by the caller). -/
def decValue (n : ℕ) (scale : ℕ) (e : ℤ) : ℚ :=
  if 0 ≤ e then Rat.divInt ((n * 10 ^ e.toNat : ℕ) : ℤ) ((10 ^ scale : ℕ) : ℤ)
  else Rat.divInt (n : ℤ) ((10 ^ scale * 10 ^ (-e).toNat : ℕ) : ℤ)

/-- Mantissa of a decimal literal: digit string with at most one `'.'`,
returning the combined digit value and the number of fractional digits.
Fails (like Python's `float`) on empty or non-digit input. -/
def parseMant (cs : List Char) : Option (ℕ × ℕ) :=
  let r := breakAt (fun c => c = '.') cs
  match r.2 with
  | [] => if cs ≠ [] ∧ allDig cs then some (digitsVal cs, 0) else none
  | _ :: fp =>
      if (r.1 ++ fp) ≠ [] ∧ allDig r.1 ∧ allDig fp then
        some (digitsVal (r.1 ++ fp), fp.length)
      else none

/-- Exponent part of a decimal literal (after `e`/`E`): optional sign and a
nonempty digit string. -/
def parseExpPart : List Char → Option ℤ
  | '-' :: ds => if ds ≠ [] ∧ allDig ds then some (-(digitsVal ds : ℤ)) else none
  | '+' :: ds => if ds ≠ [] ∧ allDig ds then some ((digitsVal ds : ℤ)) else none
  | ds => if ds ≠ [] ∧ allDig ds then some ((digitsVal ds : ℤ)) else none

/-- Unsigned decimal literal with optional exponent. -/
def parseUnsigned (cs : List Char) : Option ℚ :=
  let r := breakAt (fun c => c = 'e' ∨ c = 'E') cs
  match r.2 with
  | [] => (parseMant r.1).map fun m => decValue m.1 m.2 0
  | _ :: ex => do
      let m ← parseMant r.1
      let e ← parseExpPart ex
      pure (decValue m.1 m.2 e)

/-- Numeric value of a decimal token, as Python's `float(...)` reads the
CEA output tables: optional sign, digits with at most one decimal point,
optional exponent. The binary float is modelled as the exact rational the
decimal denotes; `inf`/`nan` spellings and underscore digit separators,
which never occur in CEA output tables, are not modelled. `none` models
`float` raising `ValueError`. -/
def parseFloatQ : List Char → Option ℚ
  | '-' :: cs => (parseUnsigned cs).map fun q => -q
  | '+' :: cs => parseUnsigned cs
  | cs => parseUnsigned cs

/-- Python `float(s)` on a whitespace-free token. -/
def pyFloat (s : String) : Option ℚ := parseFloatQ s.data

/-- `|q| · 1000` rounded half-to-even to an integer, computed on the
numerator and denominator so it is kernel-evaluable. -/
def round3 (q : ℚ) : ℕ :=
  let a := q.num.natAbs * 1000
  let d := q.den
  if 2 * (a % d) < d then a / d
  else if d < 2 * (a % d) then a / d + 1
  else if (a / d) % 2 = 0 then a / d else a / d + 1

/-- Zero-pad a digit list on the left to at least four digits, so that a
three-digit fraction can be split off. -/
def pad4 (ds : List Char) : List Char := List.replicate (4 - ds.length) '0' ++ ds

/-- Character list of `format3` below. -/
def format3Chars (q : ℚ) : List Char :=
  (if q.num < 0 then ['-'] else []) ++
    (pad4 (natStr (round3 q))).take ((pad4 (natStr (round3 q))).length - 3) ++
    '.' :: (pad4 (natStr (round3 q))).drop ((pad4 (natStr (round3 q))).length - 3)

/-- Python's `f"{x:.3f}"` fixed-point formatting of the exact rational
carried by a float: round half-to-even to three decimal places, keeping
the sign of the input (Python prints `-0.000` for tiny negatives). -/
def format3 (q : ℚ) : String := String.mk (format3Chars q)

/-- Character list of `pyStr` below. -/
def pyStrChars (q : ℚ) : List Char :=
  (if q.num < 0 then ['-'] else []) ++ natStr q.num.natAbs ++ '/' :: natStr q.den

/-- Python's default `str(x)` rendering of the number interpolated into the
`o/f=` line (the source uses no fixed format there). Only the facts that
the rendering is deterministic and contains no newline matter to the
claims, so the exact rational is rendered as `num/den`. -/
def pyStr (q : ℚ) : String := String.mk (pyStrChars q)

/-- Concatenation of a list of written string chunks: the contents of the
file after the corresponding sequence of `f.write` calls. -/
def concatW : List String → String
  | [] => ""
  | s :: ss => s ++ concatW ss

/-! ## Model of `lib/cea.py` -/

/-- The `CEAInputData` dataclass of `cea.py` (fields are populated before
use; the `None` defaults of the Python dataclass are not modelled since
`create_inp_file` reads every field). -/
structure CEAInputData where
  pcham : ℚ
  pamb : ℚ
  of : ℚ
  fuel_chems : List String
  fuel_chem_mass_percs : List ℚ
  fuel_initial_temp : ℚ
  ox_chem : String
  ox_initial_temp : ℚ
  equilibrium : Bool

/-- The equilibrium-mode line: `'equilibrium' if inp.equilibrium else 'frozen nfz=1'`. -/
def eqbrArg (inp : CEAInputData) : String :=
  if inp.equilibrium then "equilibrium" else "frozen nfz=1"

/-- The chamber-pressure line `f"p,bar={inp.pcham:.3f}"`. -/
def pLine (inp : CEAInputData) : String := "p,bar=" ++ format3 inp.pcham

/-- The pressure-ratio line `f"pip={inp.pcham/inp.pamb:.3f}"`. -/
def pipLine (inp : CEAInputData) : String := "pip=" ++ format3 (inp.pcham / inp.pamb)

/-- The O/F line `f"o/f={inp.of}"`. -/
def ofLine (inp : CEAInputData) : String := "o/f=" ++ pyStr inp.of

/-- One fuel reactant line
`f"fuel={fuel_chem} wt={fuel_chem_mass_perc:.3f} t,K={inp.fuel_initial_temp:.3f}"`. -/
def fuelLine (inp : CEAInputData) (p : String × ℚ) : String :=
  "fuel=" ++ p.1 ++ " wt=" ++ format3 p.2 ++ " t,K=" ++ format3 inp.fuel_initial_temp

/-- The oxidizer line `f"ox={inp.ox_chem} wt 100 t,K {inp.ox_initial_temp:.3f}"`. -/
def oxLine (inp : CEAInputData) : String :=
  "ox=" ++ inp.ox_chem ++ " wt 100 t,K " ++ format3 inp.ox_initial_temp

/-- The newline-terminated texts written by `create_inp_file`, in write
order, one entry per `f.write` call except the final bare `'end'`:
header, mode, parameters, `react`, one line per `zip`-ped fuel pair, and
the oxidizer line. -/
def lineTexts (inp : CEAInputData) : List String :=
  ["problem", "rocket", eqbrArg inp, pLine inp, pipLine inp, ofLine inp, "react"]
    ++ (inp.fuel_chems.zip inp.fuel_chem_mass_percs).map (fuelLine inp)
    ++ [oxLine inp]

/-- `create_inp_file` of `cea.py`: the full text written to `ceadata.inp`.
Every line is newline-terminated except the final `'end'`. Python float
division `inp.pcham / inp.pamb` raises `ZeroDivisionError` when
`inp.pamb == 0`, which is modelled by returning `none` (the partially
written file is not modelled; the call as a whole fails). -/
def create_inp_file (inp : CEAInputData) : Option String :=
  if inp.pamb = 0 then none
  else some (concatW ((lineTexts inp).map (· ++ "\n")) ++ "end")

/-- The declared fields of the `CEAOutputData` dataclass of `cea.py`, all
defaulting to `0`. -/
structure CEAOutputData where
  chamber_temp : ℚ := 0
  exhaust_gamma : ℚ := 0
  exhaust_molar_mass : ℚ := 0
  cstar : ℚ := 0
  exhaust_velocity : ℚ := 0
deriving DecidableEq

/-- The runtime attribute record of the result object `r`: a Python
dataclass instance accepts assignments to new attribute names, and
`parse_out_file` assigns `r.throat_gamma` and `r.throat_molar_mass`,
which are not declared fields of `CEAOutputData`. Those dynamic
attributes are absent (`none`) until assigned. -/
structure CEAOutputObject where
  data : CEAOutputData := {}
  throat_gamma : Option ℚ := none
  throat_molar_mass : Option ℚ := none
deriving DecidableEq

/-- The start marker of the results section of the `.out` file. -/
def startMark : String := "THEORETICAL ROCKET PERFORMANCE"

/-- The end marker of the results section of the `.out` file. -/
def endMark : String := "PRODUCTS WHICH WERE CONSIDERED"

/-- The five data-row markers tested by the `elif` chain of
`parse_out_file`, in source order. -/
inductive Mark
  | tK
  | gammas
  | molarMass
  | cstarRow
  | ispRow
deriving DecidableEq

/-- The marker substring each `elif` branch tests for. -/
def Mark.str : Mark → String
  | .tK => "T, K"
  | .gammas => "GAMMAs"
  | .molarMass => "M, (1/n)"
  | .cstarRow => "CSTAR, M/SEC"
  | .ispRow => "Isp, M/SEC"

/-- The whitespace-split field index each branch reads
(`line.split()[2]` for the temperature and `GAMMAs` rows, `[3]` for the
rest). -/
def Mark.idx : Mark → ℕ
  | .tK => 2
  | .gammas => 2
  | .molarMass => 3
  | .cstarRow => 3
  | .ispRow => 3

/-- The attribute each branch assigns: `chamber_temp`, `cstar` and
`exhaust_velocity` are declared fields; `throat_gamma` and
`throat_molar_mass` are dynamically added attributes. -/
def Mark.write : Mark → ℚ → CEAOutputObject → CEAOutputObject
  | .tK, v, r => { r with data := { r.data with chamber_temp := v } }
  | .gammas, v, r => { r with throat_gamma := some v }
  | .molarMass, v, r => { r with throat_molar_mass := some v }
  | .cstarRow, v, r => { r with data := { r.data with cstar := v } }
  | .ispRow, v, r => { r with data := { r.data with exhaust_velocity := v } }

/-- Read back the attribute a marker's branch assigns. -/
def Mark.read : Mark → CEAOutputObject → Option ℚ
  | .tK, r => some r.data.chamber_temp
  | .gammas, r => r.throat_gamma
  | .molarMass, r => r.throat_molar_mass
  | .cstarRow, r => some r.data.cstar
  | .ispRow, r => some r.data.exhaust_velocity

/-- The default ("never assigned") value of each attribute: the declared
fields default to `0`, the dynamic attributes are absent. -/
def Mark.dflt : Mark → Option ℚ
  | .tK => some 0
  | .gammas => none
  | .molarMass => none
  | .cstarRow => some 0
  | .ispRow => some 0

/-- The first marker of the `elif` chain of `parse_out_file` matching the
line, in source order (`'T, K'`, `'GAMMAs'`, `'M, (1/n)'`,
`'CSTAR, M/SEC'`, `'Isp, M/SEC'`), if any. -/
def firstMarker (line : String) : Option Mark :=
  if containsSub line "T, K" then some .tK
  else if containsSub line "GAMMAs" then some .gammas
  else if containsSub line "M, (1/n)" then some .molarMass
  else if containsSub line "CSTAR, M/SEC" then some .cstarRow
  else if containsSub line "Isp, M/SEC" then some .ispRow
  else none

/-- `float(line.split()[i])`: `none` models `IndexError` (too few fields)
or `ValueError` (non-numeric field). -/
def getNum (line : String) (i : ℕ) : Option ℚ := (pySplit line).get? i >>= pyFloat

/-- The body of the `if relevant_flag:` block of `parse_out_file`: run the
`elif` chain on the line and assign the extracted number, if any. -/
def processLine (r : CEAOutputObject) (line : String) : Option CEAOutputObject :=
  match firstMarker line with
  | none => some r
  | some m => (getNum line m.idx).map fun v => m.write v r

/-- The `relevant_flag` update at the bottom of the loop body: the start
marker sets it, otherwise the end marker clears it, otherwise it is
unchanged. -/
def nextFlag (flag : Bool) (line : String) : Bool :=
  if containsSub line startMark then true
  else if containsSub line endMark then false
  else flag

/-- The loop state of `parse_out_file`: the `relevant_flag` and the result
object being populated. -/
structure ParseState where
  relevant_flag : Bool
  r : CEAOutputObject
deriving DecidableEq

/-- One iteration of the `for line in f.readlines()` loop of
`parse_out_file`: run the data-row block when the flag is set, then update
the flag from the marker tests. An exception from the data-row block
(`none`) aborts the whole call. -/
def stepLine (st : ParseState) (line : String) : Option ParseState :=
  match (if st.relevant_flag then processLine st.r line else some st.r) with
  | none => none
  | some r' => some ⟨nextFlag st.relevant_flag line, r'⟩

/-- The whole loop of `parse_out_file` over the remaining lines. -/
def runLines : ParseState → List String → Option ParseState
  | st, [] => some st
  | st, l :: ls =>
      match stepLine st l with
      | none => none
      | some st' => runLines st' ls

/-- `parse_out_file` of `cea.py`, as a function of the lines of the
`.out` document: start with a fresh `CEAOutputData` object and the flag
cleared, run the loop, and return the populated object. `none` models an
uncaught `IndexError`/`ValueError` from a malformed matched row. -/
def parse_out_file (doc : List String) : Option CEAOutputObject :=
  (runLines ⟨false, {}⟩ doc).map (·.r)

/-- The lines of a document that the loop inspects for data rows: those at
which `relevant_flag` is set when the line is processed. -/
def windowLines (flag : Bool) : List String → List String
  | [] => []
  | l :: ls =>
      if flag then l :: windowLines (nextFlag flag l) ls
      else windowLines (nextFlag flag l) ls

/-- A line on which the `elif` chain cannot raise: either no marker
matches, or the matched row's field parses. Success of `processLine` does
not depend on the object being populated. -/
def lineOK (line : String) : Bool := (processLine {} line).isSome

/-! ## Model of `lib/plumbing.py`

The numeric formulas use `ℝ`. Python float operations that can raise are
wrapped in `Option`: `pyDivR` models float division (`ZeroDivisionError`
on a zero denominator), `pySqrt` models `math.sqrt` (`ValueError` on a
negative argument), `pyLog10` models `math.log10` (`ValueError` on a
non-positive argument), and `pyPowR` models `x ** y` for real `y` (a
negative base with a fractional exponent produces a complex number that
poisons the subsequent `math.log10` call, so it is likewise modelled as a
failure). Divisions by nonzero numeric literals are kept as plain `/`. -/

/-- Python float division: `ZeroDivisionError` on a zero denominator. -/
noncomputable def pyDivR (a b : ℝ) : Option ℝ := if b = 0 then none else some (a / b)

/-- Python `math.sqrt`. -/
noncomputable def pySqrt (x : ℝ) : Option ℝ := if x < 0 then none else some (Real.sqrt x)

/-- Python `math.log10`. -/
noncomputable def pyLog10 (x : ℝ) : Option ℝ := if x ≤ 0 then none else some (Real.logb 10 x)

/-- Python `x ** y` with a float exponent. -/
noncomputable def pyPowR (x y : ℝ) : Option ℝ := if x < 0 then none else some (x ^ y)

/-- `reynolds_number` of `plumbing.py`:
`area = pi * diameter**2 / 4; return mdot * diameter / viscosity / area`. -/
noncomputable def reynolds_number (mdot diameter viscosity : ℝ) : Option ℝ :=
  (pyDivR (mdot * diameter) viscosity).bind fun t =>
    pyDivR t (Real.pi * diameter ^ (2 : ℕ) / 4)

/-- `darcy_friction_factor` of `plumbing.py` (Haaland approximation):
`1 / (-1.8*log10((roughness/diameter/3.7)**1.11 + 6.9/reynolds))**2`.
The `mdot` argument is taken but unused, as in the source. -/
noncomputable def darcy_friction_factor (mdot roughness diameter reynolds : ℝ) : Option ℝ :=
  (pyDivR roughness diameter).bind fun a =>
    (pyPowR (a / 3.7) 1.11).bind fun b =>
      (pyDivR 6.9 reynolds).bind fun c =>
        (pyLog10 (b + c)).bind fun l =>
          pyDivR 1 ((-1.8 * l) ^ (2 : ℕ))

/-- `pressure_drop` of `plumbing.py` (Darcy–Weisbach, result converted
from Pa to bar by the final division by `1e5`). -/
noncomputable def pressure_drop (length mdot diameter roughness rho viscosity : ℝ) :
    Option ℝ :=
  (reynolds_number mdot diameter viscosity).bind fun reynolds =>
    (darcy_friction_factor mdot roughness diameter reynolds).bind fun friction =>
      (pyDivR (length * friction * 8 / Real.pi ^ (2 : ℕ) * mdot ^ (2 : ℕ)) rho).bind fun t =>
        (pyDivR t (diameter ^ (5 : ℕ))).map fun dP => dP / 100000

/-- The molar mass of air returned by the external fluid-property provider
(`cp.PropsSI('M', 'air')`), in kg/mol. -/
noncomputable def cpMolarMassAir : ℝ := 0.02896546

/-- `valve_flow_coefficient` of `plumbing.py`: with
`specific_gravity = molar_mass / PropsSI('M', 'air')`,
`Vdot_cfh = Vdot * 127133`, `P_out_psi = P_out * 14.504` and
`Vdot_standard_cfh = Vdot_cfh * P_out / 1.013 * 295 / T`, the result is
`Vdot_standard_cfh * sqrt(specific_gravity * T) / (816 * P_out_psi)`.
The source also computes `T_Rankine = T * 1.8`, which is unused, and is
therefore omitted here. -/
noncomputable def valve_flow_coefficient (Vdot P_in P_out T molar_mass : ℝ) : Option ℝ :=
  (pyDivR molar_mass cpMolarMassAir).bind fun specific_gravity =>
    (pyDivR (Vdot * 127133 * P_out / 1.013 * 295) T).bind fun Vdot_standard_cfh =>
      (pySqrt (specific_gravity * T)).bind fun s =>
        pyDivR (Vdot_standard_cfh * s) (816 * (P_out * 14.504))

/-! ## Lemmas about the output parser -/

/-- Running the loop over a concatenation of line lists. -/
theorem runLines_append (xs ys : List String) :
    ∀ st, runLines st (xs ++ ys) = (runLines st xs).bind fun s => runLines s ys := by
  induction xs with
  | nil => intro st; rfl
  | cons l ls ih =>
      intro st
      simp only [List.cons_append, runLines]
      cases stepLine st l with
      | none => rfl
      | some st' => exact ih st'

/-- With the flag cleared, lines free of the start marker are skipped
without touching the result object or the flag. -/
theorem runLines_skip (o : CEAOutputObject) :
    ∀ ls : List String, (∀ l ∈ ls, containsSub l startMark = false) →
      runLines ⟨false, o⟩ ls = some ⟨false, o⟩ := by
  intro ls
  induction ls with
  | nil => intro _; rfl
  | cons l ls ih =>
      intro h
      have h1 : containsSub l startMark = false := h l (List.mem_cons_self l ls)
      have hstep : stepLine ⟨false, o⟩ l = some ⟨false, o⟩ := by
        simp [stepLine, nextFlag, h1]
      simp only [runLines, hstep]
      exact ih fun x hx => h x (List.mem_cons_of_mem l hx)

/-- A line containing the end marker but not the start marker clears the
flag. -/
theorem stepLine_end_flag {e : String} (he : containsSub e endMark = true)
    (hes : containsSub e startMark = false) {st st' : ParseState}
    (h : stepLine st e = some st') : st'.relevant_flag = false := by
  unfold stepLine at h
  cases hp : (if st.relevant_flag = true then processLine st.r e else some st.r) with
  | none => rw [hp] at h; exact absurd h (by simp)
  | some r' =>
      rw [hp] at h
      cases h
      simp [nextFlag, hes, he]

/-- C3: the parsed result is a function of the results window alone.
For any two output documents that share the start-marker line, the window
lines and the end-marker line, and whose lines before and after the window
do not contain the start marker, `parse_out_file` returns the same result:
lines outside the window never affect any parsed field. -/
theorem c3_window_noninterference
    (pre1 pre2 post1 post2 w : List String) (s e : String)
    (hs : containsSub s startMark = true)
    (he : containsSub e endMark = true)
    (hes : containsSub e startMark = false)
    (hout : ∀ l ∈ pre1 ++ post1 ++ pre2 ++ post2, containsSub l startMark = false) :
    parse_out_file (pre1 ++ s :: w ++ e :: post1)
      = parse_out_file (pre2 ++ s :: w ++ e :: post2) := by
  have hpre1 : ∀ l ∈ pre1, containsSub l startMark = false := fun l hl =>
    hout l (by simp [hl])
  have hpre2 : ∀ l ∈ pre2, containsSub l startMark = false := fun l hl =>
    hout l (by simp [hl])
  have hpost1 : ∀ l ∈ post1, containsSub l startMark = false := fun l hl =>
    hout l (by simp [hl])
  have hpost2 : ∀ l ∈ post2, containsSub l startMark = false := fun l hl =>
    hout l (by simp [hl])
  have key : ∀ (pre post : List String), (∀ l ∈ pre, containsSub l startMark = false) →
      (∀ l ∈ post, containsSub l startMark = false) →
      runLines ⟨false, { }⟩ (pre ++ s :: w ++ e :: post)
        = (runLines ⟨false, { }⟩ (s :: w)).bind fun st2 =>
            (stepLine st2 e).bind fun st3 => some ⟨false, st3.r⟩ := by
    intro pre post hpre hpost
    rw [runLines_append, runLines_append, runLines_skip _ _ hpre, Option.some_bind]
    cases hsw : runLines ⟨false, { }⟩ (s :: w) with
    | none => rfl
    | some st2 =>
        simp only [Option.some_bind, runLines]
        cases hse : stepLine st2 e with
        | none => simp [hse]
        | some st3 =>
            have hf : st3.relevant_flag = false := stepLine_end_flag he hes hse
            have hst3 : st3 = ⟨false, st3.r⟩ := by
              cases st3; simp_all
            simp only [hse, Option.some_bind]
            rw [hst3, runLines_skip _ _ hpost]
  unfold parse_out_file
  rw [key pre1 post1 hpre1 hpost1, key pre2 post2 hpre2 hpost2]

/-- Witness for `c3_window_noninterference` at a concrete pair of
documents differing only outside the results window. -/
theorem c3_witness :
    containsSub "THEORETICAL ROCKET PERFORMANCE xx" startMark = true ∧
    containsSub "yy PRODUCTS WHICH WERE CONSIDERED" endMark = true ∧
    containsSub "yy PRODUCTS WHICH WERE CONSIDERED" startMark = false ∧
    (∀ l ∈ (["T, K 1 2 3"] ++ ["GAMMAs 4 5 6"] ++ [] ++ ["CSTAR, M/SEC 7 8 9"]),
      containsSub l startMark = false) ∧
    parse_out_file (["T, K 1 2 3"] ++ "THEORETICAL ROCKET PERFORMANCE xx" ::
        ["T, K 10 20 30"] ++ "yy PRODUCTS WHICH WERE CONSIDERED" :: ["GAMMAs 4 5 6"])
      = parse_out_file ([] ++ "THEORETICAL ROCKET PERFORMANCE xx" ::
        ["T, K 10 20 30"] ++ "yy PRODUCTS WHICH WERE CONSIDERED" :: ["CSTAR, M/SEC 7 8 9"]) :=
  ⟨by decide, by decide, by decide, by decide,
    c3_window_noninterference _ _ _ _ _ _ _ (by decide) (by decide) (by decide) (by decide)⟩

/-- A marker matched by the `elif` chain is contained in the line. -/
theorem firstMarker_contains : ∀ l m, firstMarker l = some m → containsSub l m.str = true := by
  intro l m h
  unfold firstMarker at h
  split at h
  next hc => cases h; exact hc
  next =>
    split at h
    next hc => cases h; exact hc
    next =>
      split at h
      next hc => cases h; exact hc
      next =>
        split at h
        next hc => cases h; exact hc
        next =>
          split at h
          next hc => cases h; exact hc
          next => cases h

/-- Writing one attribute leaves every other attribute unchanged. -/
theorem Mark.read_write_ne : ∀ m m' : Mark, m ≠ m' → ∀ (v : ℚ) (r : CEAOutputObject),
    Mark.read m (Mark.write m' v r) = Mark.read m r := by
  intro m m' hne v r
  cases m <;> cases m' <;> first
    | exact absurd rfl hne
    | rfl

/-- Reading back the attribute just written. -/
theorem Mark.read_write_self : ∀ (m : Mark) (v : ℚ) (r : CEAOutputObject),
    Mark.read m (Mark.write m v r) = some v := by
  intro m v r
  cases m <;> rfl

/-- No branch assigns the declared `exhaust_gamma` or `exhaust_molar_mass`
fields. -/
theorem Mark.write_declared : ∀ (m : Mark) (v : ℚ) (r : CEAOutputObject),
    (Mark.write m v r).data.exhaust_gamma = r.data.exhaust_gamma ∧
      (Mark.write m v r).data.exhaust_molar_mass = r.data.exhaust_molar_mass := by
  intro m v r
  cases m <;> exact ⟨rfl, rfl⟩

/-- Equation for `processLine` on a line without a marker. -/
theorem processLine_none (r : CEAOutputObject) (l : String)
    (hf : firstMarker l = none) : processLine r l = some r := by
  unfold processLine
  rw [hf]

/-- Equation for `processLine` on a line whose first marker is `m`. -/
theorem processLine_some (r : CEAOutputObject) (l : String) (m : Mark)
    (hf : firstMarker l = some m) :
    processLine r l = (getNum l (Mark.idx m)).map fun v => Mark.write m v r := by
  unfold processLine
  rw [hf]

/-- Whether the data-row block raises depends on the line alone, not on
the object being populated. -/
theorem processLine_isSome (r : CEAOutputObject) (l : String) :
    (processLine r l).isSome = lineOK l := by
  unfold lineOK
  cases hf : firstMarker l with
  | none => rw [processLine_none r l hf, processLine_none _ l hf]; rfl
  | some m =>
      rw [processLine_some r l m hf, processLine_some _ l m hf]
      cases getNum l (Mark.idx m) <;> rfl

/-- The data-row block never raises on a line it does not match, and on a
line whose marker is not `m` it leaves attribute `m` unchanged. -/
theorem processLine_read (m : Mark) (r : CEAOutputObject) (l : String)
    (hm : containsSub l m.str = false) :
    ∀ r', processLine r l = some r' → Mark.read m r' = Mark.read m r := by
  cases hf : firstMarker l with
  | none =>
      intro r' h
      rw [processLine_none r l hf] at h
      cases h
      rfl
  | some m' =>
      intro r' h
      have hne : m ≠ m' := by
        intro e
        rw [e, firstMarker_contains l m' hf] at hm
        cases hm
      rw [processLine_some r l m' hf] at h
      cases hg : getNum l (Mark.idx m') with
      | none => rw [hg] at h; cases h
      | some v =>
          rw [hg] at h
          cases h
          exact Mark.read_write_ne m m' hne v r

/-- Loop invariant for C6: if no line of the inspected window raises and
none contains marker `m`, the loop succeeds and attribute `m` keeps the
value it had on entry. -/
theorem runLines_window_inv (m : Mark) :
    ∀ (ls : List String) (flag : Bool) (o : CEAOutputObject),
      (∀ l ∈ windowLines flag ls, lineOK l = true) →
      (∀ l ∈ windowLines flag ls, containsSub l m.str = false) →
      ∃ st', runLines ⟨flag, o⟩ ls = some st' ∧ Mark.read m st'.r = Mark.read m o := by
  intro ls
  induction ls with
  | nil => intro flag o _ _; exact ⟨⟨flag, o⟩, rfl, rfl⟩
  | cons l ls ih =>
      intro flag o hOK hM
      cases hfl : flag with
      | false =>
          have hw : windowLines false (l :: ls) = windowLines (nextFlag false l) ls := by
            simp [windowLines]
          have hstep : stepLine ⟨false, o⟩ l = some ⟨nextFlag false l, o⟩ := by
            simp [stepLine]
          rw [hfl] at hOK hM
          rw [hw] at hOK hM
          obtain ⟨st', h1, h2⟩ := ih (nextFlag false l) o hOK hM
          exact ⟨st', by rw [runLines, hstep]; exact h1, h2⟩
      | true =>
          have hw : windowLines true (l :: ls) = l :: windowLines (nextFlag true l) ls := by
            simp [windowLines]
          rw [hfl] at hOK hM
          rw [hw] at hOK hM
          have hOKl : lineOK l = true := hOK l (List.mem_cons_self _ _)
          have hMl : containsSub l m.str = false := hM l (List.mem_cons_self _ _)
          have hsome : (processLine o l).isSome = true := by
            rw [processLine_isSome]; exact hOKl
          obtain ⟨r', hr'⟩ := Option.isSome_iff_exists.mp hsome
          have hread : Mark.read m r' = Mark.read m o := processLine_read m o l hMl r' hr'
          have hstep : stepLine ⟨true, o⟩ l = some ⟨nextFlag true l, r'⟩ := by
            simp [stepLine, hr']
          obtain ⟨st', h1, h2⟩ := ih (nextFlag true l) r'
            (fun x hx => hOK x (List.mem_cons_of_mem _ hx))
            (fun x hx => hM x (List.mem_cons_of_mem _ hx))
          exact ⟨st', by rw [runLines, hstep]; exact h1, h2.trans hread⟩

/-- C6: if a field's marker row is never matched inside the results
window, the parser still returns normally (provided no matched row of the
window is malformed) and that field keeps its default — `0` for the
declared fields, absent for the dynamically added throat attributes. -/
theorem c6_missing_row_defaults (doc : List String) (m : Mark)
    (hOK : ∀ l ∈ windowLines false doc, lineOK l = true)
    (hM : ∀ l ∈ windowLines false doc, containsSub l m.str = false) :
    ∃ o, parse_out_file doc = some o ∧ Mark.read m o = Mark.dflt m := by
  obtain ⟨st', h1, h2⟩ := runLines_window_inv m doc false { } hOK hM
  refine ⟨st'.r, ?_, ?_⟩
  · unfold parse_out_file
    rw [h1]
    rfl
  · rw [h2]
    cases m <;> rfl

/-- Witness for `c6_missing_row_defaults`: a document whose window has a
temperature row but no `GAMMAs` row leaves the throat-gamma attribute
absent, and the parser returns normally. -/
theorem c6_witness :
    (∀ l ∈ windowLines false ["THEORETICAL ROCKET PERFORMANCE", "T, K 0 5",
        "PRODUCTS WHICH WERE CONSIDERED"], lineOK l = true) ∧
    (∀ l ∈ windowLines false ["THEORETICAL ROCKET PERFORMANCE", "T, K 0 5",
        "PRODUCTS WHICH WERE CONSIDERED"], containsSub l (Mark.str .gammas) = false) ∧
    ∃ o, parse_out_file ["THEORETICAL ROCKET PERFORMANCE", "T, K 0 5",
        "PRODUCTS WHICH WERE CONSIDERED"] = some o ∧
      Mark.read .gammas o = Mark.dflt .gammas :=
  ⟨by decide, by decide, c6_missing_row_defaults _ .gammas (by decide) (by decide)⟩

/-- The loop never assigns the declared `exhaust_gamma` and
`exhaust_molar_mass` fields. -/
theorem runLines_declared : ∀ (ls : List String) (st st' : ParseState),
    runLines st ls = some st' →
      st'.r.data.exhaust_gamma = st.r.data.exhaust_gamma ∧
        st'.r.data.exhaust_molar_mass = st.r.data.exhaust_molar_mass := by
  intro ls
  induction ls with
  | nil => intro st st' h; cases h; exact ⟨rfl, rfl⟩
  | cons l ls ih =>
      intro st st' h
      rw [runLines] at h
      cases hstep : stepLine st l with
      | none => rw [hstep] at h; cases h
      | some st1 =>
          rw [hstep] at h
          have h1 := ih st1 st' h
          have h2 : st1.r.data.exhaust_gamma = st.r.data.exhaust_gamma ∧
              st1.r.data.exhaust_molar_mass = st.r.data.exhaust_molar_mass := by
            unfold stepLine at hstep
            cases hfl : st.relevant_flag with
            | false => rw [hfl] at hstep; simp at hstep; cases hstep; exact ⟨rfl, rfl⟩
            | true =>
                rw [hfl] at hstep
                rw [if_pos rfl] at hstep
                cases hp : processLine st.r l with
                | none => rw [hp] at hstep; cases hstep
                | some r' =>
                    rw [hp] at hstep
                    cases hstep
                    cases hf : firstMarker l with
                    | none =>
                        rw [processLine_none st.r l hf] at hp
                        cases hp
                        exact ⟨rfl, rfl⟩
                    | some mk =>
                        rw [processLine_some st.r l mk hf] at hp
                        cases hg : getNum l (Mark.idx mk) with
                        | none => rw [hg] at hp; cases hp
                        | some v =>
                            rw [hg] at hp
                            cases hp
                            exact Mark.write_declared mk v st.r
          exact ⟨h1.1.trans h2.1, h1.2.trans h2.2⟩

/-- C10: the declared `exhaust_gamma` and `exhaust_molar_mass` fields of
the returned `CEAOutputData` are never written: the `GAMMAs` and
`M, (1/n)` branches store into the undeclared attribute names
`throat_gamma` and `throat_molar_mass`, so whenever `parse_out_file`
returns, the declared fields still hold their zero defaults. -/
theorem c10_undeclared_attributes (doc : List String) (o : CEAOutputObject)
    (h : parse_out_file doc = some o) :
    o.data.exhaust_gamma = 0 ∧ o.data.exhaust_molar_mass = 0 := by
  unfold parse_out_file at h
  cases hr : runLines ⟨false, { }⟩ doc with
  | none => rw [hr] at h; cases h
  | some st' =>
      rw [hr] at h
      cases h
      exact runLines_declared doc _ st' hr

/-- Witness for `c10_undeclared_attributes`: a document that matches both
the `GAMMAs` and the molar-mass rows still returns zero declared exhaust
fields (the values land in the dynamic throat attributes). -/
theorem c10_witness :
    parse_out_file ["THEORETICAL ROCKET PERFORMANCE", "GAMMAs 1 2 3", "M, (1/n) 1 2 3 4"]
      = some { data := { }, throat_gamma := some 2, throat_molar_mass := some 2 } ∧
    ((⟨{ }, some 2, some 2⟩ : CEAOutputObject).data.exhaust_gamma = 0 ∧
      (⟨{ }, some 2, some 2⟩ : CEAOutputObject).data.exhaust_molar_mass = 0) :=
  ⟨by decide,
    c10_undeclared_attributes
      ["THEORETICAL ROCKET PERFORMANCE", "GAMMAs 1 2 3", "M, (1/n) 1 2 3 4"]
      ⟨{ }, some 2, some 2⟩ (by decide)⟩

/-- C1 (amended): for every line inspected inside the results section
(`relevant_flag` set) whose first matching marker in the `elif` chain is
`k`, the parser extracts the value by splitting the line on whitespace
and reading field index `Mark.idx k` — index 2 for the temperature row
and the throat-gamma row, index 3 for the molar-mass, characteristic-
velocity and exhaust-velocity rows. -/
theorem c1_field_indices (st : ParseState) (l : String) (k : Mark) (v : ℚ)
    (hflag : st.relevant_flag = true)
    (hk : firstMarker l = some k)
    (hv : getNum l (Mark.idx k) = some v) :
    ∃ st', stepLine st l = some st' ∧ Mark.read k st'.r = some v := by
  have hp : processLine st.r l = some (Mark.write k v st.r) := by
    rw [processLine_some st.r l k hk, hv]
    rfl
  refine ⟨⟨nextFlag true l, Mark.write k v st.r⟩, ?_, ?_⟩
  · unfold stepLine
    rw [hflag, if_pos rfl, hp]
  · exact Mark.read_write_self k v st.r

/-- Witness for `c1_field_indices` at the temperature row: field index 2
of the whitespace-split row is stored as the chamber temperature. -/
theorem c1_witness :
    (⟨true, { }⟩ : ParseState).relevant_flag = true ∧
    firstMarker "T, K 100 3800 200" = some .tK ∧
    getNum "T, K 100 3800 200" (Mark.idx .tK) = some 100 ∧
    ∃ st', stepLine ⟨true, { }⟩ "T, K 100 3800 200" = some st' ∧
      Mark.read .tK st'.r = some 100 :=
  ⟨rfl, by decide, by decide, c1_field_indices _ _ _ _ rfl (by decide) (by decide)⟩

/-- C1 counterexample: the claim's index-3 rule fails on the `GAMMAs`
row. On the row `GAMMAs 9 5 7` inside the results window the parser
stores field index 2 (value 5), not field index 3 (value 7). -/
theorem c1_counterexample :
    parse_out_file ["THEORETICAL ROCKET PERFORMANCE", "GAMMAs 9 5 7"]
      = some { data := { }, throat_gamma := some 5, throat_molar_mass := none } ∧
    pyFloat ((pySplit "GAMMAs 9 5 7").getD 3 "") = some 7 ∧
    (5 : ℚ) ≠ 7 := by
  refine ⟨by decide, by decide, by decide⟩

/-! ## Lemmas about the input writer -/

/-- Digit characters are never newlines. -/
theorem digitChar_ne_nl (n : ℕ) : digitChar n ≠ '\n' := by
  rcases n with _|_|_|_|_|_|_|_|_|n <;>
    first
      | decide
      | exact (by decide : ('9' : Char) ≠ '\n')

/-- Rendered digit strings contain no newline. -/
theorem natChars_ne_nl : ∀ fuel n : ℕ, '\n' ∉ natChars fuel n := by
  intro fuel
  induction fuel with
  | zero => intro n h; cases h
  | succ f ih =>
      intro n
      unfold natChars
      split
      · intro h
        rcases List.mem_singleton.mp h with h
        exact digitChar_ne_nl n h.symm
      · intro h
        rcases List.mem_append.mp h with h | h
        · exact ih _ h
        · exact digitChar_ne_nl _ (List.mem_singleton.mp h).symm

/-- Padded digit strings contain no newline. -/
theorem pad4_natStr_ne_nl (n : ℕ) : '\n' ∉ pad4 (natStr n) := by
  intro h
  rcases List.mem_append.mp h with h | h
  · exact absurd (List.eq_of_mem_replicate h) (by decide)
  · exact natChars_ne_nl _ _ h

/-- The fixed-point rendering contains no newline. -/
theorem format3_ne_nl (q : ℚ) : '\n' ∉ (format3 q).data := by
  show '\n' ∉ format3Chars q
  unfold format3Chars
  intro h
  rcases List.mem_append.mp h with h | h
  · rcases List.mem_append.mp h with h | h
    · split at h
      · exact absurd (List.mem_singleton.mp h) (by decide)
      · cases h
    · exact pad4_natStr_ne_nl _ (List.take_subset _ _ h)
  · rcases List.mem_cons.mp h with h | h
    · exact absurd h (by decide)
    · exact pad4_natStr_ne_nl _ (List.drop_subset _ _ h)

/-- The `o/f` value rendering contains no newline. -/
theorem pyStr_ne_nl (q : ℚ) : '\n' ∉ (pyStr q).data := by
  show '\n' ∉ pyStrChars q
  unfold pyStrChars
  intro h
  rcases List.mem_append.mp h with h | h
  · rcases List.mem_append.mp h with h | h
    · split at h
      · exact absurd (List.mem_singleton.mp h) (by decide)
      · cases h
    · exact natChars_ne_nl _ _ h
  · rcases List.mem_cons.mp h with h | h
    · exact absurd h (by decide)
    · exact natChars_ne_nl _ _ h

/-- Concatenating newline-free strings stays newline-free. -/
theorem noNl_append (a b : String) (ha : '\n' ∉ a.data) (hb : '\n' ∉ b.data) :
    '\n' ∉ (a ++ b).data := by
  rw [String.data_append]
  intro h
  rcases List.mem_append.mp h with h | h
  · exact ha h
  · exact hb h

/-- Splitting off one newline-terminated, newline-free line. -/
theorem splitNl_line : ∀ (t : List Char) (r : List Char), '\n' ∉ t →
    splitNl (t ++ '\n' :: r) = t :: splitNl r := by
  intro t
  induction t with
  | nil => intro r _; simp [splitNl]
  | cons c t ih =>
      intro r h
      have hc : c ≠ '\n' := fun e => h (e ▸ List.mem_cons_self c t)
      have ht : '\n' ∉ t := fun m => h (List.mem_cons_of_mem c m)
      show splitNl (c :: (t ++ '\n' :: r)) = (c :: t) :: splitNl r
      simp only [splitNl, if_neg hc]
      rw [ih r ht]

/-- A newline-free text is a single line. -/
theorem splitNl_noNl : ∀ t : List Char, '\n' ∉ t → splitNl t = [t] := by
  intro t
  induction t with
  | nil => intro _; rfl
  | cons c t ih =>
      intro h
      have hc : c ≠ '\n' := fun e => h (e ▸ List.mem_cons_self c t)
      have ht : '\n' ∉ t := fun m => h (List.mem_cons_of_mem c m)
      simp only [splitNl, if_neg hc, ih ht]

/-- Characters of a concatenation of written chunks. -/
theorem concatW_append_data : ∀ x y : List String,
    (concatW (x ++ y)).data = (concatW x).data ++ (concatW y).data := by
  intro x y
  induction x with
  | nil => rfl
  | cons s x ih =>
      calc (concatW ((s :: x) ++ y)).data
          = (s ++ concatW (x ++ y)).data := rfl
        _ = s.data ++ (concatW (x ++ y)).data := String.data_append ..
        _ = s.data ++ ((concatW x).data ++ (concatW y).data) := by rw [ih]
        _ = (s.data ++ (concatW x).data) ++ (concatW y).data := (List.append_assoc ..).symm
        _ = (concatW (s :: x)).data ++ (concatW y).data := by
              rw [show concatW (s :: x) = s ++ concatW x from rfl, String.data_append]

/-- The lines of a run of newline-terminated, newline-free texts followed
by a remainder. -/
theorem lines_concatW : ∀ (ts : List String) (r : List Char),
    (∀ s ∈ ts, '\n' ∉ s.data) →
    splitNl ((concatW (ts.map (· ++ "\n"))).data ++ r) = ts.map (·.data) ++ splitNl r := by
  intro ts
  induction ts with
  | nil => intro r _; rfl
  | cons s ts ih =>
      intro r h
      have h1 : '\n' ∉ s.data := h s (List.mem_cons_self s ts)
      have hd : ((s ++ "\n") ++ concatW (ts.map (· ++ "\n"))).data
          = s.data ++ '\n' :: (concatW (ts.map (· ++ "\n"))).data := by
        simp [String.data_append]
      calc splitNl ((concatW ((s :: ts).map (· ++ "\n"))).data ++ r)
          = splitNl (((s ++ "\n") ++ concatW (ts.map (· ++ "\n"))).data ++ r) := rfl
        _ = splitNl ((s.data ++ '\n' :: (concatW (ts.map (· ++ "\n"))).data) ++ r) := by
              rw [hd]
        _ = splitNl (s.data ++ '\n' :: ((concatW (ts.map (· ++ "\n"))).data ++ r)) := by
              rw [List.append_assoc]
              rfl
        _ = s.data :: splitNl ((concatW (ts.map (· ++ "\n"))).data ++ r) :=
              splitNl_line _ _ h1
        _ = s.data :: (ts.map (·.data) ++ splitNl r) := by
              rw [ih r fun x hx => h x (List.mem_cons_of_mem s hx)]
        _ = (s :: ts).map (·.data) ++ splitNl r := rfl

/-- Prefix test fails on distinct head characters. -/
theorem isPre_ne_head {a b : Char} (h : a ≠ b) (as bs : List Char) :
    isPre (a :: as) (b :: bs) = false := by
  simp [isPre, h]

/-- Prefix test succeeds on a literal prefix. -/
theorem isPre_append_self : ∀ p t : List Char, isPre p (p ++ t) = true := by
  intro p
  induction p with
  | nil => intro t; rfl
  | cons c p ih => intro t; simp [isPre, ih]

/-- None of the seven header/parameter lines contains a newline. -/
theorem noNl_first7 (inp : CEAInputData) :
    ∀ s ∈ (["problem", "rocket", eqbrArg inp, pLine inp, pipLine inp, ofLine inp,
      "react"] : List String), '\n' ∉ s.data := by
  intro s hs
  simp only [List.mem_cons, List.not_mem_nil, or_false] at hs
  rcases hs with rfl | rfl | rfl | rfl | rfl | rfl | rfl
  · decide
  · decide
  · unfold eqbrArg
    split
    · decide
    · decide
  · exact noNl_append _ _ (by decide) (format3_ne_nl _)
  · exact noNl_append _ _ (by decide) (format3_ne_nl _)
  · exact noNl_append _ _ (by decide) (pyStr_ne_nl _)
  · decide

/-- Provided the chemical names are newline-free, every written line text
is newline-free. -/
theorem noNl_lineTexts (inp : CEAInputData)
    (hfuel : ∀ c ∈ inp.fuel_chems, '\n' ∉ c.data) (hox : '\n' ∉ inp.ox_chem.data) :
    ∀ s ∈ lineTexts inp, '\n' ∉ s.data := by
  intro s hs
  unfold lineTexts at hs
  rcases List.mem_append.mp hs with hs | hs
  · rcases List.mem_append.mp hs with hs | hs
    · exact noNl_first7 inp s hs
    · rcases List.mem_map.mp hs with ⟨p, hp, rfl⟩
      have hp1 : '\n' ∉ p.1.data := hfuel p.1 (List.of_mem_zip hp).1
      unfold fuelLine
      have h1 : '\n' ∉ ("fuel=" ++ p.1).data := noNl_append _ _ (by decide) hp1
      have h2 : '\n' ∉ ("fuel=" ++ p.1 ++ " wt=").data := noNl_append _ _ h1 (by decide)
      have h3 : '\n' ∉ ("fuel=" ++ p.1 ++ " wt=" ++ format3 p.2).data :=
        noNl_append _ _ h2 (format3_ne_nl _)
      have h4 : '\n' ∉ ("fuel=" ++ p.1 ++ " wt=" ++ format3 p.2 ++ " t,K=").data :=
        noNl_append _ _ h3 (by decide)
      exact noNl_append _ _ h4 (format3_ne_nl _)
  · rcases List.mem_singleton.mp hs with rfl
    unfold oxLine
    have h1 : '\n' ∉ ("ox=" ++ inp.ox_chem).data := noNl_append _ _ (by decide) hox
    have h2 : '\n' ∉ ("ox=" ++ inp.ox_chem ++ " wt 100 t,K ").data :=
      noNl_append _ _ h1 (by decide)
    exact noNl_append _ _ h2 (format3_ne_nl _)

/-- The line structure of the generated input document: seven fixed-shape
lines, one line per `zip`-ped fuel pair, the oxidizer line, and the final
bare `end`. -/
theorem create_lines (inp : CEAInputData) (hpamb : inp.pamb ≠ 0)
    (hfuel : ∀ c ∈ inp.fuel_chems, '\n' ∉ c.data) (hox : '\n' ∉ inp.ox_chem.data) :
    ∃ s, create_inp_file inp = some s ∧
      splitNl s.data = (lineTexts inp).map (·.data) ++ ["end".data] := by
  refine ⟨concatW ((lineTexts inp).map (· ++ "\n")) ++ "end", ?_, ?_⟩
  · unfold create_inp_file
    rw [if_neg hpamb]
  · rw [String.data_append, lines_concatW _ _ (noNl_lineTexts inp hfuel hox),
      splitNl_noNl "end".data (by decide)]

/-- The fuel-line and ox-line prefix tests on the generated lines: only
the `zip`-ped fuel lines start with `fuel=`, and only the oxidizer line
starts with `ox=`; the trailing `end` line is bare. -/
theorem create_react_lines (inp : CEAInputData) (hpamb : inp.pamb ≠ 0)
    (hfuel : ∀ c ∈ inp.fuel_chems, '\n' ∉ c.data) (hox : '\n' ∉ inp.ox_chem.data) :
    ∃ s, create_inp_file inp = some s ∧
      (splitNl s.data).filter (fun l => isPre "fuel=".data l)
        = ((inp.fuel_chems.zip inp.fuel_chem_mass_percs).map (fuelLine inp)).map (·.data) ∧
      (splitNl s.data).countP (fun l => isPre "fuel=".data l)
        = (inp.fuel_chems.zip inp.fuel_chem_mass_percs).length ∧
      (splitNl s.data).countP (fun l => isPre "ox=".data l) = 1 ∧
      (splitNl s.data).getLast? = some "end".data := by
  obtain ⟨s, hc, hl⟩ := create_lines inp hpamb hfuel hox
  have hf_eqbr : isPre "fuel=".data (eqbrArg inp).data = false := by
    unfold eqbrArg
    split
    · decide
    · decide
  have hf_p : isPre "fuel=".data (pLine inp).data = false := by
    unfold pLine
    rw [String.data_append]
    exact isPre_ne_head (by decide) _ _
  have hf_pip : isPre "fuel=".data (pipLine inp).data = false := by
    unfold pipLine
    rw [String.data_append]
    exact isPre_ne_head (by decide) _ _
  have hf_of : isPre "fuel=".data (ofLine inp).data = false := by
    unfold ofLine
    rw [String.data_append]
    exact isPre_ne_head (by decide) _ _
  have hf_fuel : ∀ p : String × ℚ, isPre "fuel=".data (fuelLine inp p).data = true := by
    intro p
    unfold fuelLine
    simp only [String.data_append, List.append_assoc]
    exact isPre_append_self _ _
  have hf_ox : isPre "fuel=".data (oxLine inp).data = false := by
    unfold oxLine
    simp only [String.data_append, List.append_assoc]
    exact isPre_ne_head (by decide) _ _
  have ho_eqbr : isPre "ox=".data (eqbrArg inp).data = false := by
    unfold eqbrArg
    split
    · decide
    · decide
  have ho_p : isPre "ox=".data (pLine inp).data = false := by
    unfold pLine
    rw [String.data_append]
    exact isPre_ne_head (by decide) _ _
  have ho_pip : isPre "ox=".data (pipLine inp).data = false := by
    unfold pipLine
    rw [String.data_append]
    exact isPre_ne_head (by decide) _ _
  have ho_of : isPre "ox=".data (ofLine inp).data = false := by
    unfold ofLine
    rw [String.data_append]
    show isPre ('o' :: 'x' :: '=' :: []) ('o' :: '/' :: 'f' :: '=' :: (pyStr inp.of).data)
      = false
    simp [isPre]
  have ho_fuel : ∀ p : String × ℚ, isPre "ox=".data (fuelLine inp p).data = false := by
    intro p
    unfold fuelLine
    simp only [String.data_append, List.append_assoc]
    exact isPre_ne_head (by decide) _ _
  have ho_ox : isPre "ox=".data (oxLine inp).data = true := by
    unfold oxLine
    simp only [String.data_append, List.append_assoc]
    exact isPre_append_self _ _
  have hfm : (((inp.fuel_chems.zip inp.fuel_chem_mass_percs).map (fuelLine inp)).map
      (·.data)).filter (fun l => isPre "fuel=".data l)
      = ((inp.fuel_chems.zip inp.fuel_chem_mass_percs).map (fuelLine inp)).map (·.data) := by
    refine List.filter_eq_self.mpr ?_
    intro x hx
    rcases List.mem_map.mp hx with ⟨t, ht, rfl⟩
    rcases List.mem_map.mp ht with ⟨p, _, rfl⟩
    exact hf_fuel p
  have hfm0 : (((inp.fuel_chems.zip inp.fuel_chem_mass_percs).map (fuelLine inp)).map
      (·.data)).countP (fun l => isPre "ox=".data l) = 0 := by
    refine List.countP_eq_zero.mpr ?_
    intro x hx
    rcases List.mem_map.mp hx with ⟨t, ht, rfl⟩
    rcases List.mem_map.mp ht with ⟨p, _, rfl⟩
    simp [ho_fuel p]
  refine ⟨s, hc, ?_, ?_, ?_, ?_⟩
  · rw [hl]
    unfold lineTexts
    simp only [List.map_append, List.map_cons, List.map_nil, List.filter_append,
      List.filter_cons, List.filter_nil, hf_eqbr, hf_p, hf_pip, hf_of, hf_ox, hfm]
    simp [isPre]
  · rw [hl]
    unfold lineTexts
    rw [List.countP_eq_length_filter]
    simp only [List.map_append, List.map_cons, List.map_nil, List.filter_append,
      List.filter_cons, List.filter_nil, hf_eqbr, hf_p, hf_pip, hf_of, hf_ox, hfm]
    simp [isPre]
  · rw [hl]
    unfold lineTexts
    simp only [List.map_append, List.map_cons, List.map_nil, List.countP_append,
      List.countP_cons, List.countP_nil, ho_eqbr, ho_p, ho_pip, ho_of, ho_ox, hfm0]
    simp [isPre]
  · rw [hl]
    exact List.getLast?_concat _

/-- C2: with matching list lengths (and newline-free chemical names),
the generated document has exactly one `fuel=` line per fuel constituent
in list order, a single `ox=` line, and ends with a bare `end` line. -/
theorem c2_reactant_lines (inp : CEAInputData)
    (hlen : inp.fuel_chems.length = inp.fuel_chem_mass_percs.length)
    (hpamb : inp.pamb ≠ 0)
    (hfuel : ∀ c ∈ inp.fuel_chems, '\n' ∉ c.data) (hox : '\n' ∉ inp.ox_chem.data) :
    ∃ s, create_inp_file inp = some s ∧
      (splitNl s.data).filter (fun l => isPre "fuel=".data l)
        = ((inp.fuel_chems.zip inp.fuel_chem_mass_percs).map (fuelLine inp)).map (·.data) ∧
      (splitNl s.data).countP (fun l => isPre "fuel=".data l) = inp.fuel_chems.length ∧
      (splitNl s.data).countP (fun l => isPre "ox=".data l) = 1 ∧
      (splitNl s.data).getLast? = some "end".data := by
  obtain ⟨s, h1, h2, h3, h4, h5⟩ := create_react_lines inp hpamb hfuel hox
  refine ⟨s, h1, h2, ?_, h4, h5⟩
  rw [h3, List.length_zip, hlen, Nat.min_self]

/-- The spec's end-to-end example input: chamber 20 bar, ambient 1 bar,
O/F 1.5, fuel `C2H5OH` at 100 wt% and 298 K, oxidizer `O2` at 90 K,
equilibrium mode. -/
def inp7 : CEAInputData :=
  { pcham := 20, pamb := 1, of := Rat.divInt 3 2, fuel_chems := ["C2H5OH"],
    fuel_chem_mass_percs := [100], fuel_initial_temp := 298, ox_chem := "O2",
    ox_initial_temp := 90, equilibrium := true }

/-- Witness for `c2_reactant_lines` at the spec's example input. -/
theorem c2_witness :
    inp7.fuel_chems.length = inp7.fuel_chem_mass_percs.length ∧
    inp7.pamb ≠ 0 ∧
    (∀ c ∈ inp7.fuel_chems, '\n' ∉ c.data) ∧ '\n' ∉ inp7.ox_chem.data ∧
    ∃ s, create_inp_file inp7 = some s ∧
      (splitNl s.data).filter (fun l => isPre "fuel=".data l)
        = ((inp7.fuel_chems.zip inp7.fuel_chem_mass_percs).map (fuelLine inp7)).map (·.data) ∧
      (splitNl s.data).countP (fun l => isPre "fuel=".data l) = inp7.fuel_chems.length ∧
      (splitNl s.data).countP (fun l => isPre "ox=".data l) = 1 ∧
      (splitNl s.data).getLast? = some "end".data :=
  ⟨by decide, by decide, by decide, by decide,
    c2_reactant_lines inp7 (by decide) (by decide) (by decide) (by decide)⟩

/-- An input with a negative ambient pressure (all other fields as in the
spec's example). -/
def inp4 : CEAInputData := { inp7 with pamb := -1 }

/-- C4 counterexample: for a strictly negative ambient pressure the
writer does not fail — the claim says it fails whenever the ambient
pressure is zero or negative. -/
theorem c4_counterexample : inp4.pamb ≤ 0 ∧ (create_inp_file inp4).isSome = true := by
  constructor
  · decide
  · decide

/-- C4 (amended): the writer fails with a division by zero if and only if
the ambient pressure is exactly zero; in particular a strictly negative
ambient pressure does not make it fail. -/
theorem c4_zero_ambient (inp : CEAInputData) :
    create_inp_file inp = none ↔ inp.pamb = 0 := by
  unfold create_inp_file
  by_cases h : inp.pamb = 0
  · simp [h]
  · simp [h]

/-- An input whose fuel-name and fuel-percentage lists have different
lengths (two names, one percentage). -/
def inp5 : CEAInputData := { inp7 with fuel_chems := ["C2H5OH", "H2O"] }

/-- C5: on a length mismatch the writer does not fail; it writes exactly
`min` of the two lengths many `fuel=` lines, pairing the lists in
lock-step order — the `zip` silently truncates to the shorter list. -/
theorem c5_zip_truncates (inp : CEAInputData)
    (hne : inp.fuel_chems.length ≠ inp.fuel_chem_mass_percs.length)
    (hpamb : inp.pamb ≠ 0)
    (hfuel : ∀ c ∈ inp.fuel_chems, '\n' ∉ c.data) (hox : '\n' ∉ inp.ox_chem.data) :
    ∃ s, create_inp_file inp = some s ∧
      (splitNl s.data).filter (fun l => isPre "fuel=".data l)
        = ((inp.fuel_chems.zip inp.fuel_chem_mass_percs).map (fuelLine inp)).map (·.data) ∧
      (splitNl s.data).countP (fun l => isPre "fuel=".data l)
        = min inp.fuel_chems.length inp.fuel_chem_mass_percs.length := by
  obtain ⟨s, h1, h2, h3, _, _⟩ := create_react_lines inp hpamb hfuel hox
  refine ⟨s, h1, h2, ?_⟩
  rw [h3, List.length_zip]

/-- Witness for `c5_zip_truncates`: two fuel names against one
percentage yield exactly one `fuel=` line. -/
theorem c5_witness :
    inp5.fuel_chems.length ≠ inp5.fuel_chem_mass_percs.length ∧
    inp5.pamb ≠ 0 ∧
    (∀ c ∈ inp5.fuel_chems, '\n' ∉ c.data) ∧ '\n' ∉ inp5.ox_chem.data ∧
    ∃ s, create_inp_file inp5 = some s ∧
      (splitNl s.data).filter (fun l => isPre "fuel=".data l)
        = ((inp5.fuel_chems.zip inp5.fuel_chem_mass_percs).map (fuelLine inp5)).map (·.data) ∧
      (splitNl s.data).countP (fun l => isPre "fuel=".data l)
        = min inp5.fuel_chems.length inp5.fuel_chem_mass_percs.length :=
  ⟨by decide, by decide, by decide, by decide,
    c5_zip_truncates inp5 (by decide) (by decide) (by decide) (by decide)⟩

/-- The fifth line (index 4) of the generated document is the
pressure-ratio line. -/
theorem create_line4 (inp : CEAInputData) (hpamb : inp.pamb ≠ 0) :
    ∃ s, create_inp_file inp = some s ∧
      (splitNl s.data).get? 4 = some (pipLine inp).data := by
  refine ⟨concatW ((lineTexts inp).map (· ++ "\n")) ++ "end", ?_, ?_⟩
  · unfold create_inp_file
    rw [if_neg hpamb]
  · have hassoc : lineTexts inp
        = ["problem", "rocket", eqbrArg inp, pLine inp, pipLine inp, ofLine inp, "react"]
          ++ ((inp.fuel_chems.zip inp.fuel_chem_mass_percs).map (fuelLine inp)
            ++ [oxLine inp]) := by
      unfold lineTexts
      rw [List.append_assoc]
    rw [String.data_append, hassoc, List.map_append, concatW_append_data,
      List.append_assoc, lines_concatW _ _ (noNl_first7 inp),
      List.get?_append (by simp)]
    rfl

/-- C7: the pressure-ratio line of the generated document is the chamber
pressure divided by the ambient pressure, formatted to three decimal
places; in particular for the spec's example (chamber 20 bar, ambient
1 bar) it reads `pip=20.000`. -/
theorem c7_pressure_ratio_line :
    (∀ inp : CEAInputData, inp.pamb ≠ 0 → ∃ s, create_inp_file inp = some s ∧
      (splitNl s.data).get? 4 = some ("pip=" ++ format3 (inp.pcham / inp.pamb)).data) ∧
    (∃ s, create_inp_file inp7 = some s ∧
      (splitNl s.data).get? 4 = some "pip=20.000".data) := by
  constructor
  · intro inp h
    exact create_line4 inp h
  · obtain ⟨s, h1, h2⟩ := create_line4 inp7 (by decide)
    refine ⟨s, h1, ?_⟩
    rw [h2]
    have hpip : pipLine inp7 = "pip=20.000" := by
      unfold pipLine
      have h20 : inp7.pcham / inp7.pamb = (20 : ℚ) := by
        show (20 : ℚ) / 1 = 20
        norm_num
      rw [h20]
      decide
    rw [hpip]

/-- Witness for `c7_pressure_ratio_line` at the spec's example input. -/
theorem c7_witness :
    inp7.pamb ≠ 0 ∧
    ∃ s, create_inp_file inp7 = some s ∧
      (splitNl s.data).get? 4 = some ("pip=" ++ format3 (inp7.pcham / inp7.pamb)).data :=
  ⟨by decide, c7_pressure_ratio_line.1 inp7 (by decide)⟩

/-! ## Claims about the plumbing formulas -/

/-- C9: `pressure_drop` is linear in its `length` argument — the Reynolds
number and friction factor do not depend on the length, and the
Darcy–Weisbach expression is proportional to it, so doubling the length
exactly doubles the returned pressure drop. -/
theorem c9_pressure_drop_linear
    (length mdot diameter roughness rho viscosity : ℝ)
    (hm : 0 < mdot) (hd : 0 < diameter) (hr : 0 < roughness)
    (hrho : 0 < rho) (hv : 0 < viscosity) :
    pressure_drop (2 * length) mdot diameter roughness rho viscosity
      = (pressure_drop length mdot diameter roughness rho viscosity).map fun x => 2 * x := by
  unfold pressure_drop
  cases hre : reynolds_number mdot diameter viscosity with
  | none => rfl
  | some re =>
      simp only [Option.some_bind]
      cases hf : darcy_friction_factor mdot roughness diameter re with
      | none => simp
      | some fr =>
          simp only [Option.some_bind]
          unfold pyDivR
          have h1 : rho ≠ 0 := ne_of_gt hrho
          have hd5 : diameter ^ (5 : ℕ) ≠ 0 := pow_ne_zero _ (ne_of_gt hd)
          rw [if_neg h1, if_neg h1]
          simp only [Option.some_bind]
          rw [if_neg hd5, if_neg hd5]
          simp only [Option.map_some']
          congr 1
          ring

/-- Witness for `c9_pressure_drop_linear` at unit inputs. -/
theorem c9_witness :
    ((0 : ℝ) < 1) ∧
    pressure_drop (2 * 1) 1 1 1 1 1 = (pressure_drop 1 1 1 1 1 1).map fun x => 2 * x :=
  ⟨by norm_num,
    c9_pressure_drop_linear 1 1 1 1 1 1 (by norm_num) (by norm_num) (by norm_num)
      (by norm_num) (by norm_num)⟩

/-- C8: `valve_flow_coefficient` returns a strictly positive Cv on every
physically valid (all-positive) input, and fails with a division by zero
(rather than returning an infinite or NaN value) when the outlet pressure
is zero. -/
theorem c8_valve_cv (Vdot P_in P_out T molar_mass : ℝ)
    (hV : 0 < Vdot) (hPin : 0 < P_in) (hT : 0 < T) (hM : 0 < molar_mass) :
    (0 < P_out →
      ∃ cv, valve_flow_coefficient Vdot P_in P_out T molar_mass = some cv ∧ 0 < cv) ∧
    (P_out = 0 → valve_flow_coefficient Vdot P_in P_out T molar_mass = none) := by
  have hair : cpMolarMassAir ≠ 0 := by
    unfold cpMolarMassAir
    norm_num
  have hairpos : (0 : ℝ) < cpMolarMassAir := by
    unfold cpMolarMassAir
    norm_num
  have hT' : T ≠ 0 := ne_of_gt hT
  have hsg : 0 < molar_mass / cpMolarMassAir := div_pos hM hairpos
  have harg : ¬(molar_mass / cpMolarMassAir * T < 0) := not_lt.2 (mul_pos hsg hT).le
  constructor
  · intro hPo
    unfold valve_flow_coefficient pyDivR pySqrt
    rw [if_neg hair]
    simp only [Option.some_bind]
    rw [if_neg hT']
    simp only [Option.some_bind]
    rw [if_neg harg]
    simp only [Option.some_bind]
    have hden : (816 : ℝ) * (P_out * 14.504) ≠ 0 := by
      have : (0 : ℝ) < 816 * (P_out * 14.504) := by positivity
      exact ne_of_gt this
    rw [if_neg hden]
    refine ⟨_, rfl, ?_⟩
    apply div_pos
    · apply mul_pos
      · positivity
      · exact Real.sqrt_pos.mpr (mul_pos hsg hT)
    · positivity
  · intro h0
    subst h0
    unfold valve_flow_coefficient pyDivR pySqrt
    rw [if_neg hair]
    simp only [Option.some_bind]
    rw [if_neg hT']
    simp only [Option.some_bind]
    rw [if_neg harg]
    simp only [Option.some_bind]
    rw [if_pos (by norm_num : (816 : ℝ) * (0 * 14.504) = 0)]

/-- Witness for `c8_valve_cv`: positive Cv at unit inputs, failure at
zero outlet pressure. -/
theorem c8_witness :
    ((0 : ℝ) < 1) ∧
    (∃ cv, valve_flow_coefficient 1 1 1 1 1 = some cv ∧ 0 < cv) ∧
    valve_flow_coefficient 1 1 0 1 1 = none :=
  ⟨by norm_num,
    (c8_valve_cv 1 1 1 1 1 (by norm_num) (by norm_num) (by norm_num) (by norm_num)).1
      (by norm_num),
    (c8_valve_cv 1 1 0 1 1 (by norm_num) (by norm_num) (by norm_num) (by norm_num)).2 rfl⟩
